import Mathlib

set_option maxHeartbeats 1000000

/-!
Verification development for the plain-CFG / hierarchical-CFG builder
(`llvm/lib/Transforms/Vectorize/VPlanHCFGBuilder.cpp`) and the XOR-merge
test dataflow analysis (`mlir/test/lib/Analysis/TestDataFlowFramework.cpp`).

Conventions of the shallow embedding:

* All C++ pointers are modelled as natural-number identifiers, with `0`
  playing the role of the null pointer; fresh identifiers are drawn from a
  counter.  `DenseMap<K, V*>::lookup` (which returns the default, i.e. null,
  for a missing key) is modelled by `lookupD`, and `DenseMap::find` by
  `List.lookup`.  Map insertion is modelled by consing, so `List.lookup`
  returns the most recent binding, which matches in-place overwrite.
* Mutation is modelled by explicit state passing over `BState` (builder
  state plus the `VPlan` under construction) and `SolverState` (the
  dataflow solver's per-program-point states).
* Assertions of the C++ are not modelled (release semantics); theorems
  carry the corresponding facts as hypotheses where they matter.
* `uint64_t` values are modelled as `Nat`: XOR is bitwise, without carries,
  so the machine width is irrelevant to the stated properties.
-/

/-- `DenseMap<K, V*>::lookup`: a missing key yields the null id `0`. -/
def lookupD (m : List (Nat × Nat)) (k : Nat) : Nat :=
  (m.lookup k).getD 0

/-! ## The XOR-merge dataflow test analysis (`TestDataFlowFramework.cpp`) -/

/-- `mlir::ChangeResult`. -/
inductive ChangeResult where
  | NoChange
  | Change
deriving DecidableEq

/-- `ChangeResult::operator|=`. -/
def crCombine : ChangeResult → ChangeResult → ChangeResult
  | .NoChange, r => r
  | .Change, _ => .Change

/-- `FooState`'s payload: an optional integer; `none` is uninitialized. -/
abbrev FooVal := Option Nat

/-- `FooState::join(uint64_t)`: initialize an uninitialized state to the
value, otherwise XOR it in; report whether the stored value changed. -/
def fooJoinV (s : FooVal) (v : Nat) : ChangeResult × FooVal :=
  match s with
  | none => (.Change, some v)
  | some before =>
    (if before = before ^^^ v then .NoChange else .Change, some (before ^^^ v))

/-- `FooState::join(const FooState &)`: an uninitialized right-hand side is
a no-op, otherwise join the contained value. -/
def fooJoinState (s rhs : FooVal) : ChangeResult × FooVal :=
  match rhs with
  | none => (.NoChange, s)
  | some v => fooJoinV s v

/-- `FooState::set`: overwrite the payload, reporting change on difference. -/
def fooSet (s rhs : FooVal) : ChangeResult × FooVal :=
  if s = rhs then (.NoChange, s) else (.Change, rhs)

/-- Program points of the solver (modelled from the spec's description of the
dataflow collaborator: states are attached before blocks and around ops). -/
inductive PPoint where
  | beforeBlock (b : Nat)
  | beforeOp (o : Nat)
  | afterOp (o : Nat)
deriving BEq, DecidableEq

/-- The solver's state map (modelled from the spec: per-program-point
states, default-initialized to uninitialized on first access). -/
abbrev SolverState := List (PPoint × FooVal)

def lookupState (σ : SolverState) (p : PPoint) : FooVal :=
  (σ.lookup p).getD none

def writeState (σ : SolverState) (p : PPoint) (v : FooVal) : SolverState :=
  (p, v) :: σ

/-- An MLIR operation: id, optional `foo` integer attribute, and regions.
A region is a list of blocks; a block is `(blockId, predecessor block ids,
contained operations)`. -/
inductive MOp where
  | mk (opId : Nat) (fooAttr : Option Nat)
       (regions : List (List (Nat × List Nat × List MOp)))

abbrev MBlk := Nat × List Nat × List MOp

def MOp.opId : MOp → Nat
  | .mk i _ _ => i

def MOp.fooAttr : MOp → Option Nat
  | .mk _ a _ => a

def MOp.regions : MOp → List (List MBlk)
  | .mk _ _ r => r

/-- `Operation::getNumRegions`. -/
def numRegions (op : MOp) : Nat := op.regions.length

def lastOpId (ops : List MOp) : Nat :=
  match ops.getLast? with
  | some op => op.opId
  | none => 0

/-- `Block::isEntryBlock`: the block is the first block of its region. -/
def isEntryBlk (region : List MBlk) (blk : MBlk) : Bool :=
  match region with
  | [] => false
  | b :: _ => b.1 == blk.1

/-- `FooAnalysis::visitOperation`: copy the state across the operation,
then XOR in the `foo` attribute if present, and store the result
(`propagateIfChanged` is modelled as the store itself). -/
def visitOperation (op : MOp) (σ : SolverState) : SolverState :=
  let point := PPoint.afterOp op.opId
  let st := lookupState σ point
  let prevState := lookupState σ (PPoint.beforeOp op.opId)
  let st1 := (fooSet st prevState).2
  let st2 :=
    match op.fooAttr with
    | some value => (fooJoinV st1 value).2
    | none => st1
  writeState σ point st2

/-- `FooAnalysis::visitBlock`: entry blocks keep their default state;
otherwise join the states at the predecessors' terminators. -/
def visitBlock (region : List MBlk) (blk : MBlk) (σ : SolverState) : SolverState :=
  if isEntryBlk region blk then σ
  else
    let point := PPoint.beforeBlock blk.1
    let st :=
      blk.2.1.foldl
        (fun st p =>
          let predSt :=
            match region.find? (fun b => b.1 == p) with
            | some pb => lookupState σ (PPoint.afterOp (lastOpId pb.2.2))
            | none => none
          (fooJoinState st predSt).2)
        (lookupState σ point)
    writeState σ point st

/-- `mlir::LogicalResult`: `emitError` produces `failure`. -/
inductive LogicalResult where
  | success
  | failure
deriving DecidableEq

/-- The inner loop of `FooAnalysis::initialize` over the operations of one
block: a nested operation with regions is a solver-level error, reported as
an ordinary failure result. -/
def initOpsLoop : SolverState → List MOp → LogicalResult × SolverState
  | σ, [] => (.success, σ)
  | σ, op :: rest =>
    if numRegions op ≠ 0 then (.failure, σ)
    else initOpsLoop (visitOperation op σ) rest

/-- The outer loop of `FooAnalysis::initialize` over the blocks of the
top-level region. -/
def initBlocksLoop (region : List MBlk) : SolverState → List MBlk → LogicalResult × SolverState
  | σ, [] => (.success, σ)
  | σ, blk :: rest =>
    let σ1 := visitBlock region blk σ
    match initOpsLoop σ1 blk.2.2 with
    | (.failure, σ2) => (.failure, σ2)
    | (.success, σ2) => initBlocksLoop region σ2 rest

/-- `FooAnalysis::initialize`: reject a top-level op without exactly one
region, an empty top-level region, or any nested op that has regions --
each reported as an ordinary `failure` result to the caller; otherwise seed
the first block's state with `join(0)` and visit all blocks and ops. -/
def fooAnalysisInit (top : MOp) (σ : SolverState) : LogicalResult × SolverState :=
  match top.regions with
  | [region] =>
    match region with
    | [] => (.failure, σ)
    | firstBlk :: _ =>
      let p := PPoint.beforeBlock firstBlk.1
      let σ1 := writeState σ p (fooJoinV (lookupState σ p) 0).2
      initBlocksLoop region σ1 region
  | _ => (.failure, σ)

/-- Outcome of a pass run. -/
inductive PassOutcome where
  | signaledPassFailure
  | completed
deriving DecidableEq

/-- `TestFooAnalysisPass::runOnOperation`: if `initializeAndRun` fails the
pass signals failure and returns.  The fixpoint iteration that follows a
successful initialization (and the diagnostic printing) is not modelled;
only the failure propagation, which is decided by initialization alone for
the error shapes considered here. -/
def runOnOperation (func : MOp) : PassOutcome :=
  match (fooAnalysisInit func []).1 with
  | .failure => .signaledPassFailure
  | .success => .completed

/-! ## The plain-CFG builder (`VPlanHCFGBuilder.cpp`)

Input IR model.  Basic blocks, loops, and SSA values are identified by
natural numbers (`0` = null).  Terminators are kept separate from the
block's non-terminator instruction list; the C++ iterates the terminator as
the last instruction of the block, which the embedding mirrors by handling
it after the instruction list. -/

/-- A non-terminator LLVM instruction.  A phi carries its list of
`(incoming block, incoming value)` pairs; an ordinary op carries opcode,
operands, and whether its result type is void. -/
inductive InstData where
  | phi (id : Nat) (incoming : List (Nat × Nat))
  | op (id : Nat) (opcode : Nat) (operands : List Nat) (isVoid : Bool)
deriving DecidableEq

/-- A block terminator: unconditional branch, two-way conditional branch
(condition value, two successor blocks), or a switch (selector value,
default destination, and `(case value, case successor)` pairs). -/
inductive Terminator where
  | br1 (succ : Nat)
  | br2 (cond succ0 succ1 : Nat)
  | switchT (cond : Nat) (defaultDest : Nat) (cases : List (Nat × Nat))
deriving DecidableEq

/-- The `llvm::Loop` queries used by the builder (input collaborator).
`loopPredecessor` and `preheader` coincide for canonical (loop-simplified)
input but are distinct queries in the source. -/
structure LoopData where
  header : Nat := 0
  latch : Nat := 0
  loopPredecessor : Nat := 0
  preheader : Nat := 0
  parentLoop : Nat := 0
  depth : Nat := 0
  blocks : List Nat := []
deriving DecidableEq

/-- The input program graph and loop info (input collaborator interface):
block predecessor lists, instruction lists, terminators, the innermost
containing loop of each block (`loopFor`, 0 = none), the loop table, the
outermost loop being translated, and the reverse-postorder traversal of its
body computed by `LoopBlocksRPO`. -/
structure IRFunc where
  theLoop : Nat
  loops : Nat → LoopData
  loopFor : Nat → Nat
  bbInsts : Nat → List InstData
  bbTerm : Nat → Terminator
  bbPreds : Nat → List Nat
  rpo : List Nat

/-- `successors(BB)`, derived from the terminator. -/
def bbSuccs (F : IRFunc) (bb : Nat) : List Nat :=
  match F.bbTerm bb with
  | .br1 s => [s]
  | .br2 _ s0 s1 => [s0, s1]
  | .switchT _ d cases => d :: cases.map (·.2)

/-- `BasicBlock::getSinglePredecessor` (0 when not unique). -/
def singlePredOf (F : IRFunc) (bb : Nat) : Nat :=
  match F.bbPreds bb with
  | [p] => p
  | _ => 0

/-- `Loop::contains(BasicBlock *)`. -/
def loopContains (F : IRFunc) (l bb : Nat) : Bool :=
  (F.loops l).blocks.contains bb

/-- `isHeaderBB(BB, L)`: `L && BB == L->getHeader()`. -/
def isHeaderBB (F : IRFunc) (bb l : Nat) : Bool :=
  l != 0 && bb == (F.loops l).header

/-- The parent-chain walk of `doesContainLoop`, fuelled (the chain length of
well-formed loop info is bounded by the loop depth). -/
def containsLoopFrom (F : IRFunc) (outerLoop : Nat) : Nat → Nat → Bool
  | 0, _ => false
  | fuel + 1, p =>
    if p == 0 then false
    else if p == outerLoop then true
    else containsLoopFrom F outerLoop fuel (F.loops p).parentLoop

/-- `doesContainLoop(L, OuterLoop)`: whether `L` is contained within (or
equal to) `OuterLoop`. -/
def doesContainLoop (F : IRFunc) (l outerLoop : Nat) : Bool :=
  if (F.loops l).depth < (F.loops outerLoop).depth then false
  else containsLoopFrom F outerLoop ((F.loops l).depth + 1) l

/-- The output recipe kinds created by the builder: widened phis (with the
originating phi recorded), plain n-ary ops, `BranchOnCond`, and `Switch`.
A recipe's id doubles as the id of the `VPValue` it defines. -/
inductive Recipe where
  | widenPhi (origPhi : Nat) (operands : List Nat)
  | naryOp (opcode : Nat) (operands : List Nat)
  | branchOnCond (operands : List Nat)
  | switchRecipe (operands : List Nat)
deriving DecidableEq

/-- Per-`VPBlockBase` data: whether the node is a region, predecessor and
successor lists, parent region (0 = none), and, for regions, the entry and
exiting blocks; for basic blocks, the contained recipe ids in order. -/
structure BlockInfo where
  isRegion : Bool := false
  preds : List Nat := []
  succs : List Nat := []
  parent : Nat := 0
  entry : Nat := 0
  exiting : Nat := 0
  recipeIds : List Nat := []
deriving DecidableEq

/-- The builder state: the id counter, the `BB2VPBB`, `IRDef2VPValue` and
`Loop2Region` maps, the deferred-phi worklist (each entry keeps the phi id,
its parent block, and its incoming list), and the plan under construction
(block table, recipe table, live-in registry, pre-existing entry block). -/
structure BState where
  nextId : Nat
  bb2vpbb : List (Nat × Nat)
  ir2vpv : List (Nat × Nat)
  phisToFix : List (Nat × Nat × List (Nat × Nat))
  loop2region : List (Nat × Nat)
  blks : List (Nat × BlockInfo)
  recipes : List (Nat × Recipe)
  liveIns : List (Nat × Nat)
  planEntry : Nat
deriving DecidableEq

def getBlk (s : BState) (b : Nat) : BlockInfo :=
  (s.blks.lookup b).getD {}

def setBlk (s : BState) (b : Nat) (info : BlockInfo) : BState :=
  { s with blks := (b, info) :: s.blks }

def getRecipe (s : BState) (r : Nat) : Recipe :=
  (s.recipes.lookup r).getD (.naryOp 0 [])

/-- Modelled from the spec (output consumer interface, `createBlock`
factory): allocate a fresh basic-block node. -/
def createVPBasicBlock (s : BState) : Nat × BState :=
  (s.nextId, { s with nextId := s.nextId + 1, blks := (s.nextId, {}) :: s.blks })

/-- Modelled from the spec (`createRegion` factory): allocate a fresh
region node. -/
def createVPRegionBlock (s : BState) : Nat × BState :=
  (s.nextId,
   { s with nextId := s.nextId + 1,
            blks := (s.nextId, { isRegion := true }) :: s.blks })

/-- Modelled from the spec: `VPBlockBase::setParent`. -/
def setBlkParent (s : BState) (b p : Nat) : BState :=
  setBlk s b { getBlk s b with parent := p }

/-- Modelled from the spec: `VPRegionBlock::setEntry` registers the entry
block and records the region as the entry block's parent (required for the
region-as-a-unit redirection of §4.2 step 4). -/
def setEntry (s : BState) (r b : Nat) : BState :=
  setBlkParent (setBlk s r { getBlk s r with entry := b }) b r

/-- Modelled from the spec: `VPRegionBlock::setExiting` registers the
exiting block and records the region as its parent. -/
def setExiting (s : BState) (r b : Nat) : BState :=
  setBlkParent (setBlk s r { getBlk s r with exiting := b }) b r

/-- Modelled from the spec: `VPBlockBase::setPredecessors` appends the
given predecessors (the list is empty at every call site of the builder). -/
def setPredecessors (s : BState) (b : Nat) (ps : List Nat) : BState :=
  setBlk s b { getBlk s b with preds := (getBlk s b).preds ++ ps }

/-- Modelled from the spec: `VPBlockBase::setSuccessors`. -/
def setSuccessors (s : BState) (b : Nat) (succs : List Nat) : BState :=
  setBlk s b { getBlk s b with succs := (getBlk s b).succs ++ succs }

/-- Modelled from the spec: `VPBlockBase::setOneSuccessor`. -/
def setOneSuccessor (s : BState) (b t : Nat) : BState :=
  setSuccessors s b [t]

/-- Modelled from the spec: `VPBlockBase::setTwoSuccessors`. -/
def setTwoSuccessors (s : BState) (b t u : Nat) : BState :=
  setSuccessors s b [t, u]

/-- Modelled from the spec: `VPBlockUtils::connectBlocks` appends `t` to
`f`'s successors and `f` to `t`'s predecessors. -/
def connectBlocks (s : BState) (f t : Nat) : BState :=
  let s1 := setBlk s f { getBlk s f with succs := (getBlk s f).succs ++ [t] }
  setBlk s1 t { getBlk s1 t with preds := (getBlk s1 t).preds ++ [f] }

/-- Modelled from the spec: `VPlan::getOrAddLiveIn`, deduplicating by
identity; live-in nodes draw ids from the same counter as the rest. -/
def getOrAddLiveIn (s : BState) (v : Nat) : Nat × BState :=
  match s.liveIns.lookup v with
  | some x => (x, s)
  | none =>
    (s.nextId,
     { s with nextId := s.nextId + 1, liveIns := (v, s.nextId) :: s.liveIns })

/-- `isHeaderVPBB`: the block has a parent region whose entry it is. -/
def isHeaderVPBB (s : BState) (b : Nat) : Bool :=
  (getBlk s b).parent != 0 && (getBlk s (getBlk s b).parent).entry == b

/-- `PlainCFGBuilder::getOrCreateVPBB`: retrieve the block made for `bb`,
or create it; on first visiting the header of a loop strictly inside
`theLoop`, also create that loop's region (entry = the new block, parent =
the region recorded for the enclosing loop, null if none). -/
def getOrCreateVPBB (F : IRFunc) (bb : Nat) (s : BState) : Nat × BState :=
  match s.bb2vpbb.lookup bb with
  | some vpbb => (vpbb, s)
  | none =>
    let vpbb := (createVPBasicBlock s).1
    let s1 := { (createVPBasicBlock s).2 with
                bb2vpbb := (bb, (createVPBasicBlock s).1) :: s.bb2vpbb }
    let loopOfBB := F.loopFor bb
    if loopOfBB == 0 || loopOfBB == F.theLoop
        || !doesContainLoop F loopOfBB F.theLoop then
      (vpbb, s1)
    else if !isHeaderBB F bb loopOfBB then
      (vpbb, setBlkParent s1 vpbb (lookupD s1.loop2region loopOfBB))
    else
      let region := (createVPRegionBlock s1).1
      let s2 := (createVPRegionBlock s1).2
      let s3 := setBlkParent s2 region
                  (lookupD s2.loop2region (F.loops loopOfBB).parentLoop)
      let s4 := setEntry s3 region vpbb
      (vpbb, { s4 with loop2region := (loopOfBB, region) :: s4.loop2region })

/-- `PlainCFGBuilder::getOrCreateVPOperand`: an already-translated value
gives its existing node; anything else is registered as a live-in
(deduplicated) and recorded in the translation map. -/
def getOrCreateVPOperand (s : BState) (irVal : Nat) : Nat × BState :=
  match s.ir2vpv.lookup irVal with
  | some v => (v, s)
  | none =>
    let newVPVal := (getOrAddLiveIn s irVal).1
    (newVPVal,
     { (getOrAddLiveIn s irVal).2 with
       ir2vpv := (irVal, newVPVal) :: s.ir2vpv })

/-- Append a recipe to a block; the recipe id is its defining value id. -/
def appendRecipe (s : BState) (vpbb : Nat) (r : Recipe) : Nat × BState :=
  let rid := s.nextId
  let s1 := { s with nextId := s.nextId + 1, recipes := (rid, r) :: s.recipes }
  (rid, setBlk s1 vpbb
          { getBlk s1 vpbb with recipeIds := (getBlk s1 vpbb).recipeIds ++ [rid] })

def recipeAddOperand : Recipe → Nat → Recipe
  | .widenPhi p ops, v => .widenPhi p (ops ++ [v])
  | .naryOp o ops, v => .naryOp o (ops ++ [v])
  | .branchOnCond ops, v => .branchOnCond (ops ++ [v])
  | .switchRecipe ops, v => .switchRecipe (ops ++ [v])

/-- Modelled from the spec: `VPUser::addOperand` appends one operand to a
node's operand list. -/
def addOperand (s : BState) (rid v : Nat) : BState :=
  { s with recipes := (rid, recipeAddOperand (getRecipe s rid) v) :: s.recipes }

/-- Resolve a list of IR operands left to right. -/
def resolveOperands (s : BState) (ops : List Nat) : List Nat × BState :=
  ops.foldl (fun acc op =>
    ((acc.1 ++ [(getOrCreateVPOperand acc.2 op).1]),
     (getOrCreateVPOperand acc.2 op).2)) ([], s)

/-- Modelled from the spec: `VPBlockBase::getExitingBasicBlock` descends
through regions to an underlying basic block (fuelled; `nextId` bounds the
nesting depth of any node the builder creates). -/
def exitingBBFrom (s : BState) : Nat → Nat → Nat
  | 0, b => b
  | fuel + 1, b =>
    if (getBlk s b).isRegion then exitingBBFrom s fuel (getBlk s b).exiting
    else b

def getExitingBasicBlock (s : BState) (b : Nat) : Nat :=
  exitingBBFrom s s.nextId b

/-- The phi-case table of `createVPInstructionsForVPBB`: resolve every
incoming value and key it by the incoming block's VPBB. -/
def phiIncomingTable (s : BState) (incoming : List (Nat × Nat)) :
    List (Nat × Nat) × BState :=
  incoming.foldl (fun acc p =>
    ((lookupD (getOrCreateVPOperand acc.2 p.2).2.bb2vpbb p.1,
      (getOrCreateVPOperand acc.2 p.2).1) :: acc.1,
     (getOrCreateVPOperand acc.2 p.2).2)) ([], s)

/-- One step of `createVPInstructionsForVPBB`'s instruction loop: phis get
an empty placeholder recipe (header phis are queued for deferred fix-up,
other phis are filled eagerly in VPBB-predecessor order); ordinary
instructions resolve their operands and become an n-ary op; every result is
registered in the translation map. -/
def translateInst (F : IRFunc) (bb vpbb : Nat) (s : BState) : InstData → BState
  | .phi pid incoming =>
    let rid := (appendRecipe s vpbb (.widenPhi pid [])).1
    let s1 := (appendRecipe s vpbb (.widenPhi pid [])).2
    let s2 :=
      if isHeaderBB F bb (F.loopFor bb) then
        { s1 with phisToFix := s1.phisToFix ++ [(pid, bb, incoming)] }
      else
        let tbl := (phiIncomingTable s1 incoming).1
        let s2 := (phiIncomingTable s1 incoming).2
        (getBlk s2 vpbb).preds.foldl (fun st pred =>
          addOperand st rid
            ((tbl.lookup (getExitingBasicBlock s2 pred)).getD 0)) s2
    { s2 with ir2vpv := (pid, rid) :: s2.ir2vpv }
  | .op oid opcode operands _ =>
    let vpOperands := (resolveOperands s operands).1
    let s1 := (resolveOperands s operands).2
    let rid := (appendRecipe s1 vpbb (.naryOp opcode vpOperands)).1
    let s2 := (appendRecipe s1 vpbb (.naryOp opcode vpOperands)).2
    { s2 with ir2vpv := (oid, rid) :: s2.ir2vpv }

/-- The terminator part of `createVPInstructionsForVPBB` (the terminator is
the last instruction of the source block).  An unconditional branch never
creates a recipe (on either path of the source's guard).  A conditional
branch is elided when the block is `TheLoop`'s latch or some successor lies
outside `TheLoop`; otherwise it becomes a one-operand `BranchOnCond`.  A
switch always becomes a recipe carrying the resolved selector followed by
one resolved operand per case. -/
def translateTerminator (F : IRFunc) (bb vpbb : Nat) (s : BState) : BState :=
  match F.bbTerm bb with
  | .br1 _ => s
  | .br2 cond _ _ =>
    if (F.loops F.theLoop).latch == bb
        || (bbSuccs F bb).any (fun succ => !loopContains F F.theLoop succ) then
      s
    else
      (appendRecipe (getOrCreateVPOperand s cond).2 vpbb
        (.branchOnCond [(getOrCreateVPOperand s cond).1])).2
  | .switchT cond _ cases =>
    let c := (getOrCreateVPOperand s cond).1
    let s1 := (getOrCreateVPOperand s cond).2
    let ops := (cases.foldl (fun acc cse =>
      (acc.1 ++ [(getOrCreateVPOperand acc.2 cse.1).1],
       (getOrCreateVPOperand acc.2 cse.1).2)) ([c], s1)).1
    let s2 := (cases.foldl (fun acc cse =>
      (acc.1 ++ [(getOrCreateVPOperand acc.2 cse.1).1],
       (getOrCreateVPOperand acc.2 cse.1).2)) ([c], s1)).2
    (appendRecipe s2 vpbb (.switchRecipe ops)).2

/-- `PlainCFGBuilder::createVPInstructionsForVPBB`. -/
def createVPInstructionsForVPBB (F : IRFunc) (vpbb bb : Nat) (s : BState) : BState :=
  translateTerminator F bb vpbb ((F.bbInsts bb).foldl (translateInst F bb vpbb) s)

/-- The `GetLatchOfExit` lambda of `setVPBBPredsFromBB`: the single
predecessor of `bb` when it lies in a different (deeper) loop, i.e. when
`bb` is a dedicated exit block of a nested loop (0 otherwise). -/
def getLatchOfExit (F : IRFunc) (bb : Nat) : Nat :=
  let singlePred := singlePredOf F bb
  if singlePred == 0 then 0
  else if F.loopFor singlePred == F.loopFor bb then 0
  else singlePred

/-- The predecessor-collecting loop of `setVPBBPredsFromBB`. -/
def createPredVPBBs (F : IRFunc) : List Nat → List Nat → BState → List Nat × BState
  | [], acc, s => (acc, s)
  | p :: rest, acc, s =>
    createPredVPBBs F rest (acc ++ [(getOrCreateVPBB F p s).1])
      (getOrCreateVPBB F p s).2

/-- `PlainCFGBuilder::setVPBBPredsFromBB`: for a dedicated nested-loop exit
block, the sole predecessor is the nested loop's region; otherwise the
predecessors are the blocks for `bb`'s input predecessors, in input order. -/
def setVPBBPredsFromBB (F : IRFunc) (vpbb bb : Nat) (s : BState) : BState :=
  let latchBB := getLatchOfExit F bb
  if latchBB != 0 then
    setPredecessors (getOrCreateVPBB F latchBB s).2 vpbb
      [(getBlk (getOrCreateVPBB F latchBB s).2 (getOrCreateVPBB F latchBB s).1).parent]
  else
    setPredecessors (createPredVPBBs F (F.bbPreds bb) [] s).2 vpbb
      (createPredVPBBs F (F.bbPreds bb) [] s).1

/-- `PlainCFGBuilder::setRegionPredsFromBB`: connect a header's region to
the loop predecessor's block. -/
def setRegionPredsFromBB (F : IRFunc) (region bb : Nat) (s : BState) : BState :=
  setPredecessors
    (getOrCreateVPBB F (F.loops (F.loopFor bb)).loopPredecessor s).2 region
    [(getOrCreateVPBB F (F.loops (F.loopFor bb)).loopPredecessor s).1]

/-- `PHINode::getIncomingValueForBlock` (0 when the block is absent). -/
def incomingValueForBlock (incoming : List (Nat × Nat)) (b : Nat) : Nat :=
  ((incoming.find? (fun p => p.1 == b)).map (·.2)).getD 0

/-- One step of `PlainCFGBuilder::fixHeaderPhis`: look up the placeholder,
then append the resolved incoming value from the loop predecessor followed
by the resolved incoming value from the loop latch. -/
def fixHeaderPhi (F : IRFunc) (s : BState) (e : Nat × Nat × List (Nat × Nat)) : BState :=
  let vpPhi := lookupD s.ir2vpv e.1
  let l := F.loopFor e.2.1
  let w0 := incomingValueForBlock e.2.2 (F.loops l).loopPredecessor
  let s2 := addOperand (getOrCreateVPOperand s w0).2 vpPhi (getOrCreateVPOperand s w0).1
  let w1 := incomingValueForBlock e.2.2 (F.loops l).latch
  addOperand (getOrCreateVPOperand s2 w1).2 vpPhi (getOrCreateVPOperand s2 w1).1

/-- `PlainCFGBuilder::fixHeaderPhis`. -/
def fixHeaderPhis (F : IRFunc) (s : BState) : BState :=
  s.phisToFix.foldl (fixHeaderPhi F) s

/-- The successor-wiring part of `buildPlainCFG`'s main loop: the latch of
`TheLoop` is connected straight back to the header block and nothing else;
switches wire every case target; a single successor is redirected to a
nested loop's region when it is that loop's header; a nested latch sets the
*region's* successor to the non-header target and records the exiting
block; otherwise an early-exit edge is dropped and in-loop targets are
wired in branch order. -/
def wireSuccessors (F : IRFunc) (bb vpbb region : Nat) (s : BState) : BState :=
  if bb == (F.loops F.theLoop).latch then
    connectBlocks (getOrCreateVPBB F (F.loops (F.loopFor bb)).header s).2 vpbb
      (getOrCreateVPBB F (F.loops (F.loopFor bb)).header s).1
  else
    match F.bbTerm bb with
    | .switchT _ d cases =>
      let d1 := (getOrCreateVPBB F d s).1
      let sd := (getOrCreateVPBB F d s).2
      let succs := (cases.foldl (fun acc cse =>
        (acc.1 ++ [(getOrCreateVPBB F cse.2 acc.2).1],
         (getOrCreateVPBB F cse.2 acc.2).2)) ([d1], sd)).1
      let s2 := (cases.foldl (fun acc cse =>
        (acc.1 ++ [(getOrCreateVPBB F cse.2 acc.2).1],
         (getOrCreateVPBB F cse.2 acc.2).2)) ([d1], sd)).2
      setSuccessors s2 vpbb succs
    | .br1 succ =>
      let succ1 := (getOrCreateVPBB F succ s).1
      let s1 := (getOrCreateVPBB F succ s).2
      setOneSuccessor s1 vpbb
        (if isHeaderVPBB s1 succ1 then (getBlk s1 succ1).parent else succ1)
    | .br2 _ irSucc0 irSucc1 =>
      let succ0 := (getOrCreateVPBB F irSucc0 s).1
      let s1 := (getOrCreateVPBB F irSucc0 s).2
      let succ1 := (getOrCreateVPBB F irSucc1 s1).1
      let s2 := (getOrCreateVPBB F irSucc1 s1).2
      if bb == (F.loops (F.loopFor bb)).latch then
        setExiting
          (setOneSuccessor s2 region
            (if isHeaderVPBB s2 succ0 then succ1 else succ0))
          region vpbb
      else if F.loopFor bb != 0 && !loopContains F (F.loopFor bb) irSucc0 then
        setOneSuccessor s2 vpbb succ1
      else if F.loopFor bb != 0 && !loopContains F (F.loopFor bb) irSucc1 then
        setOneSuccessor s2 vpbb succ0
      else
        setTwoSuccessors s2 vpbb succ0 succ1

/-- One iteration of `buildPlainCFG`'s RPO loop. -/
def processBlock (F : IRFunc) (s : BState) (bb : Nat) : BState :=
  let vpbb := (getOrCreateVPBB F bb s).1
  let s1 := (getOrCreateVPBB F bb s).2
  let region := (getBlk s1 vpbb).parent
  let s2 :=
    if !isHeaderBB F bb (F.loopFor bb) then setVPBBPredsFromBB F vpbb bb s1
    else if region != 0 then setRegionPredsFromBB F region bb s1
    else s1
  let s3 := createVPInstructionsForVPBB F vpbb bb s2
  wireSuccessors F bb vpbb region s3

/-- The preheader pre-seeding of `buildPlainCFG`: every non-void-result
instruction of the preheader is registered as a live-in (the preheader's
terminator is void and not part of `bbInsts`). -/
def seedInst (s : BState) : InstData → BState
  | .phi pid _ =>
    { (getOrAddLiveIn s pid).2 with
      ir2vpv := (pid, (getOrAddLiveIn s pid).1) :: s.ir2vpv }
  | .op oid _ _ isVoid =>
    if isVoid then s
    else
      { (getOrAddLiveIn s oid).2 with
        ir2vpv := (oid, (getOrAddLiveIn s oid).1) :: s.ir2vpv }

/-- The initial builder state: the plan's pre-existing entry block has id 1
and ids from 2 on are fresh. -/
def initState : BState :=
  { nextId := 2, bb2vpbb := [], ir2vpv := [], phisToFix := [], loop2region := [],
    blks := [(1, {})], recipes := [], liveIns := [], planEntry := 1 }

/-- `PlainCFGBuilder::buildPlainCFG`: seed the preheader's definitions,
process the loop body in RPO, fix the deferred header phis, and connect the
plan entry to the top header's block. -/
def buildPlainCFG (F : IRFunc) : BState :=
  let s1 := (F.bbInsts ((F.loops F.theLoop).preheader)).foldl seedInst initState
  let s2 := F.rpo.foldl (processBlock F) s1
  let s3 := fixHeaderPhis F s2
  connectBlocks (getOrCreateVPBB F (F.loops F.theLoop).header s3).2
    ((getOrCreateVPBB F (F.loops F.theLoop).header s3).2).planEntry
    (getOrCreateVPBB F (F.loops F.theLoop).header s3).1

/-! ## Concrete inputs used by counterexamples and witnesses -/

/-- A canonical two-level loop nest.  Blocks: 1 = outer preheader,
2 = outer header, 3 = inner preheader, 4 = inner header, 5 = inner latch,
6 = outer latch (and dedicated exit of the inner loop), 7 = outer exit.
Loop 1 (outer, `theLoop`) has header 2, latch 6; loop 2 (inner) has header
4, latch 5; the inner latch conditionally branches back to 4 or out to 6,
the outer latch conditionally branches back to 2 or out to 7. -/
def exNested : IRFunc :=
  { theLoop := 1
    loops := fun l =>
      if l == 1 then
        { header := 2, latch := 6, loopPredecessor := 1, preheader := 1,
          parentLoop := 0, depth := 1, blocks := [2, 3, 4, 5, 6] }
      else if l == 2 then
        { header := 4, latch := 5, loopPredecessor := 3, preheader := 3,
          parentLoop := 1, depth := 2, blocks := [4, 5] }
      else {}
    loopFor := fun bb =>
      if bb == 2 || bb == 3 || bb == 6 then 1
      else if bb == 4 || bb == 5 then 2
      else 0
    bbInsts := fun _ => []
    bbTerm := fun bb =>
      if bb == 1 then .br1 2
      else if bb == 2 then .br1 3
      else if bb == 3 then .br1 4
      else if bb == 4 then .br1 5
      else if bb == 5 then .br2 100 4 6
      else if bb == 6 then .br2 101 2 7
      else .br1 0
    bbPreds := fun bb =>
      if bb == 2 then [1, 6]
      else if bb == 3 then [2]
      else if bb == 4 then [3, 5]
      else if bb == 5 then [4]
      else if bb == 6 then [5]
      else if bb == 7 then [6]
      else []
    rpo := [2, 3, 4, 5, 6] }

/-- A single loop whose latch (block 3) ends in a conditional branch with
both destinations inside the loop (an exit exists elsewhere; the input is
in loop-simplify form). -/
def exLatchCond : IRFunc :=
  { theLoop := 1
    loops := fun l =>
      if l == 1 then
        { header := 2, latch := 3, loopPredecessor := 1, preheader := 1,
          parentLoop := 0, depth := 1, blocks := [2, 3] }
      else {}
    loopFor := fun bb => if bb == 2 || bb == 3 then 1 else 0
    bbInsts := fun _ => []
    bbTerm := fun bb =>
      if bb == 2 then .br1 3
      else if bb == 3 then .br2 100 2 3
      else .br1 0
    bbPreds := fun bb =>
      if bb == 2 then [1, 3]
      else if bb == 3 then [2, 3]
      else []
    rpo := [2, 3] }

/-- A single loop with an early exit: block 3 (not the latch) conditionally
branches to the outside block 7 or to the latch 4; the latch 4 conditionally
branches back to the header 2 or to the dedicated exit 8. -/
def exEarlyExit : IRFunc :=
  { theLoop := 1
    loops := fun l =>
      if l == 1 then
        { header := 2, latch := 4, loopPredecessor := 1, preheader := 1,
          parentLoop := 0, depth := 1, blocks := [2, 3, 4] }
      else {}
    loopFor := fun bb => if bb == 2 || bb == 3 || bb == 4 then 1 else 0
    bbInsts := fun _ => []
    bbTerm := fun bb =>
      if bb == 2 then .br1 3
      else if bb == 3 then .br2 100 7 4
      else if bb == 4 then .br2 101 2 8
      else .br1 0
    bbPreds := fun bb =>
      if bb == 2 then [1, 4]
      else if bb == 3 then [2]
      else if bb == 4 then [3]
      else if bb == 7 then [3]
      else if bb == 8 then [4]
      else []
    rpo := [2, 3, 4] }

/-- A loop containing a block (3) that ends in a switch with selector 100,
default destination 4 and one case `(value 7, successor 2)`. -/
def exSwitch : IRFunc :=
  { theLoop := 1
    loops := fun l =>
      if l == 1 then
        { header := 2, latch := 4, loopPredecessor := 1, preheader := 1,
          parentLoop := 0, depth := 1, blocks := [2, 3, 4] }
      else {}
    loopFor := fun bb => if bb == 2 || bb == 3 || bb == 4 then 1 else 0
    bbInsts := fun _ => []
    bbTerm := fun bb => if bb == 3 then .switchT 100 4 [(7, 2)] else .br1 0
    bbPreds := fun _ => []
    rpo := [2, 3, 4] }

/-- A builder state as left by a traversal of `exNested` in which the header
phi 10 of the outer loop is deferred; its incoming list names the latch edge
first.  Values 20 (from the preheader side) and 21 (from the latch side) are
already translated to nodes 6 and 7; the placeholder recipe is node 5. -/
def c1state : BState :=
  { nextId := 8, bb2vpbb := [], ir2vpv := [(10, 5), (20, 6), (21, 7)],
    phisToFix := [(10, 2, [(6, 21), (1, 20)])], loop2region := [],
    blks := [], recipes := [(5, .widenPhi 10 [])], liveIns := [], planEntry := 1 }

/-- A builder state in which block 2 of `exNested` has been translated to
block 2 and the block 3 under construction is block 3. -/
def c2stateA : BState :=
  { nextId := 4, bb2vpbb := [(2, 2)], ir2vpv := [], phisToFix := [],
    loop2region := [], blks := [(2, {}), (3, {})], recipes := [], liveIns := [],
    planEntry := 1 }

/-- A builder state in which the inner loop of `exNested` is fully built
(latch block 5 translated to 6, inside region 5 with exiting block 6) and
the dedicated exit block 6 under construction is block 9. -/
def c2stateB : BState :=
  { nextId := 10, bb2vpbb := [(5, 6)], ir2vpv := [], phisToFix := [],
    loop2region := [(2, 5)],
    blks := [(5, { isRegion := true, entry := 4, exiting := 6 }),
             (6, { parent := 5 }), (9, {})],
    recipes := [], liveIns := [], planEntry := 1 }

/-- A builder state of `exNested` just before the first visit of the inner
loop's header (block 4): blocks 2 and 3 exist, no region yet. -/
def c3state : BState :=
  { nextId := 5, bb2vpbb := [(2, 2), (3, 3)], ir2vpv := [], phisToFix := [],
    loop2region := [], blks := [(2, {}), (3, {})], recipes := [], liveIns := [],
    planEntry := 1 }

/-- A builder state of `exNested` at the successor-wiring step of the outer
latch (block 6, translated to 9); the outer header's block is 2. -/
def c4state : BState :=
  { nextId := 10, bb2vpbb := [(2, 2), (6, 9)], ir2vpv := [], phisToFix := [],
    loop2region := [], blks := [(2, {}), (9, {})], recipes := [], liveIns := [],
    planEntry := 1 }

/-- A builder state of `exNested` at the processing of the inner latch
(block 5, translated to 6, inside region 5 whose entry is block 4); the
outer-latch block 6 is already created as 9. -/
def c5state : BState :=
  { nextId := 10, bb2vpbb := [(4, 4), (6, 9)], ir2vpv := [], phisToFix := [],
    loop2region := [(2, 5)],
    blks := [(4, { parent := 5 }), (5, { isRegion := true, entry := 4 }),
             (6, { parent := 5 }), (9, {})],
    recipes := [], liveIns := [], planEntry := 1 }

/-- A builder state of `exEarlyExit` at the successor wiring of block 3. -/
def c7state : BState :=
  { nextId := 5, bb2vpbb := [(3, 3)], ir2vpv := [], phisToFix := [],
    loop2region := [], blks := [(3, {})], recipes := [], liveIns := [],
    planEntry := 1 }

/-- A builder state of `exSwitch` at the terminator of block 3. -/
def swState : BState :=
  { nextId := 5, bb2vpbb := [], ir2vpv := [], phisToFix := [], loop2region := [],
    blks := [(3, {})], recipes := [], liveIns := [], planEntry := 1 }

/-- A top-level op with two regions. -/
def exBadTop : MOp := .mk 1 none [[], []]

/-- A top-level op with one region containing one block whose single nested
op itself has a region. -/
def exNestedRegionsOp : MOp := .mk 1 none [[(10, [], [.mk 2 none [[]]])]]

/-! ## Helper lemmas about the association-list maps -/

theorem lookup_cons_self {β : Type} {k : Nat} {v : β} {m : List (Nat × β)} :
    List.lookup k ((k, v) :: m) = some v := by
  simp [List.lookup]

theorem lookup_cons_ne {β : Type} {k a : Nat} {v : β} {m : List (Nat × β)}
    (h : a ≠ k) : List.lookup a ((k, v) :: m) = List.lookup a m := by
  have hb : (a == k) = false := beq_eq_false_iff_ne.mpr h
  simp [List.lookup, hb]

theorem getBlk_setBlk_self {s : BState} {b : Nat} {i : BlockInfo} :
    getBlk (setBlk s b i) b = i := by
  simp [getBlk, setBlk, lookup_cons_self]

theorem getBlk_setBlk_ne {s : BState} {b b2 : Nat} {i : BlockInfo}
    (h : b2 ≠ b) : getBlk (setBlk s b i) b2 = getBlk s b2 := by
  simp [getBlk, setBlk, lookup_cons_ne h]

/-! ## Helper lemmas about `getOrCreateVPBB` -/

theorem getOrCreateVPBB_found {F : IRFunc} {bb : Nat} {s : BState} {vpbb : Nat}
    (h : s.bb2vpbb.lookup bb = some vpbb) :
    getOrCreateVPBB F bb s = (vpbb, s) := by
  simp [getOrCreateVPBB, h]

theorem getOrCreateVPBB_none {F : IRFunc} {bb : Nat} {s : BState}
    (h : s.bb2vpbb.lookup bb = none) :
    (getOrCreateVPBB F bb s).1 = s.nextId ∧
    ((getOrCreateVPBB F bb s).2).bb2vpbb = (bb, s.nextId) :: s.bb2vpbb := by
  simp only [getOrCreateVPBB, h, createVPBasicBlock]
  split
  · exact ⟨rfl, rfl⟩
  · split
    · exact ⟨rfl, rfl⟩
    · exact ⟨rfl, rfl⟩

theorem getOrCreateVPBB_lookup_mono {F : IRFunc} {bb : Nat} {s : BState}
    {k x : Nat} (h : s.bb2vpbb.lookup k = some x) :
    ((getOrCreateVPBB F bb s).2).bb2vpbb.lookup k = some x := by
  cases hb : s.bb2vpbb.lookup bb with
  | some v => rw [getOrCreateVPBB_found hb]; exact h
  | none =>
    rw [(getOrCreateVPBB_none hb).2]
    have hk : k ≠ bb := by
      intro he
      rw [he, hb] at h
      exact Option.noConfusion h
    rw [lookup_cons_ne hk]
    exact h

theorem getOrCreateVPBB_lookup_self (F : IRFunc) (bb : Nat) (s : BState) :
    ((getOrCreateVPBB F bb s).2).bb2vpbb.lookup bb =
      some (getOrCreateVPBB F bb s).1 := by
  cases hb : s.bb2vpbb.lookup bb with
  | some v => rw [getOrCreateVPBB_found hb]; exact hb
  | none =>
    rw [(getOrCreateVPBB_none hb).2, (getOrCreateVPBB_none hb).1]
    exact lookup_cons_self

/-! ## Helper lemmas about `getOrCreateVPOperand` and `addOperand` -/

theorem getOrCreateVPOperand_found {s : BState} {v x : Nat}
    (h : s.ir2vpv.lookup v = some x) :
    getOrCreateVPOperand s v = (x, s) := by
  simp [getOrCreateVPOperand, h]

theorem getOrCreateVPOperand_none {s : BState} {v : Nat}
    (h : s.ir2vpv.lookup v = none) :
    ((getOrCreateVPOperand s v).2).ir2vpv =
      (v, (getOrCreateVPOperand s v).1) :: s.ir2vpv := by
  cases hl : s.liveIns.lookup v <;>
    simp [getOrCreateVPOperand, h, getOrAddLiveIn, hl]

theorem getOrCreateVPOperand_lookup_self (s : BState) (v : Nat) :
    ((getOrCreateVPOperand s v).2).ir2vpv.lookup v =
      some (getOrCreateVPOperand s v).1 := by
  cases hb : s.ir2vpv.lookup v with
  | some x => rw [getOrCreateVPOperand_found hb]; exact hb
  | none => rw [getOrCreateVPOperand_none hb]; exact lookup_cons_self

theorem getOrCreateVPOperand_lookup_mono {s : BState} {v k x : Nat}
    (h : s.ir2vpv.lookup k = some x) :
    ((getOrCreateVPOperand s v).2).ir2vpv.lookup k = some x := by
  cases hb : s.ir2vpv.lookup v with
  | some y => rw [getOrCreateVPOperand_found hb]; exact h
  | none =>
    rw [getOrCreateVPOperand_none hb]
    have hk : k ≠ v := by
      intro he
      rw [he, hb] at h
      exact Option.noConfusion h
    rw [lookup_cons_ne hk]
    exact h

theorem getOrCreateVPOperand_recipes (s : BState) (v : Nat) :
    ((getOrCreateVPOperand s v).2).recipes = s.recipes := by
  simp only [getOrCreateVPOperand, getOrAddLiveIn]
  cases hb : s.ir2vpv.lookup v with
  | some y => simp [hb]
  | none =>
    cases hl : s.liveIns.lookup v <;> simp [hb, hl]

theorem getOrCreateVPOperand_liveIns_mono {s : BState} {v k x : Nat}
    (h : s.liveIns.lookup k = some x) :
    ((getOrCreateVPOperand s v).2).liveIns.lookup k = some x := by
  simp only [getOrCreateVPOperand, getOrAddLiveIn]
  cases hb : s.ir2vpv.lookup v with
  | some y => simp [hb, h]
  | none =>
    cases hl : s.liveIns.lookup v with
    | some z => simp [hb, hl, h]
    | none =>
      have hk : k ≠ v := by
        intro he
        rw [he, hl] at h
        exact Option.noConfusion h
      simp [hb, hl, lookup_cons_ne hk, h]

theorem addOperand_recipes_self (s : BState) (rid v : Nat) :
    (addOperand s rid v).recipes.lookup rid =
      some (recipeAddOperand (getRecipe s rid) v) := by
  simp [addOperand, lookup_cons_self]

theorem addOperand_recipes_ne {s : BState} {rid v r2 : Nat} (h : r2 ≠ rid) :
    (addOperand s rid v).recipes.lookup r2 = s.recipes.lookup r2 := by
  simp [addOperand, lookup_cons_ne h]

theorem addOperand_ir2vpv (s : BState) (rid v : Nat) :
    (addOperand s rid v).ir2vpv = s.ir2vpv := rfl

/-! ## Helper lemmas about `fixHeaderPhi` and its fold -/

theorem fixHeaderPhi_ir2vpv_mono {F : IRFunc} {s : BState} {k x : Nat}
    (e : Nat × Nat × List (Nat × Nat)) (h : s.ir2vpv.lookup k = some x) :
    (fixHeaderPhi F s e).ir2vpv.lookup k = some x := by
  simp only [fixHeaderPhi, addOperand_ir2vpv]
  exact getOrCreateVPOperand_lookup_mono
    (getOrCreateVPOperand_lookup_mono h)

theorem fixHeaderPhi_recipes_pres {F : IRFunc} {s : BState} {rid : Nat}
    {e : Nat × Nat × List (Nat × Nat)} {re : Nat}
    (he : s.ir2vpv.lookup e.1 = some re) (hne : re ≠ rid) :
    (fixHeaderPhi F s e).recipes.lookup rid = s.recipes.lookup rid := by
  have hD : lookupD s.ir2vpv e.1 = re := by simp [lookupD, he]
  simp only [fixHeaderPhi, hD]
  rw [addOperand_recipes_ne (fun h2 => hne h2.symm),
      getOrCreateVPOperand_recipes,
      addOperand_recipes_ne (fun h2 => hne h2.symm),
      getOrCreateVPOperand_recipes]

theorem fixFold_ir2vpv_mono {F : IRFunc} {k x : Nat} :
    ∀ (l : List (Nat × Nat × List (Nat × Nat))) (s : BState),
      s.ir2vpv.lookup k = some x →
      (l.foldl (fixHeaderPhi F) s).ir2vpv.lookup k = some x := by
  intro l
  induction l with
  | nil => intro s h; exact h
  | cons e rest ih =>
    intro s h
    exact ih _ (fixHeaderPhi_ir2vpv_mono e h)

theorem fixFold_recipes_pres {F : IRFunc} {rid : Nat} :
    ∀ (l : List (Nat × Nat × List (Nat × Nat))) (s : BState),
      (∀ e ∈ l, ∃ re, s.ir2vpv.lookup e.1 = some re ∧ re ≠ rid) →
      (l.foldl (fixHeaderPhi F) s).recipes.lookup rid = s.recipes.lookup rid := by
  intro l
  induction l with
  | nil => intro s _; rfl
  | cons e rest ih =>
    intro s hl
    obtain ⟨re, hre, hner⟩ := hl e (List.mem_cons_self e rest)
    rw [List.foldl_cons, ih (fixHeaderPhi F s e)
      (fun e2 h2 => by
        obtain ⟨re2, hre2, hner2⟩ := hl e2 (List.mem_cons_of_mem e h2)
        exact ⟨re2, fixHeaderPhi_ir2vpv_mono e hre2, hner2⟩)]
    exact fixHeaderPhi_recipes_pres hre hner

theorem fixHeaderPhi_step {F : IRFunc} {s : BState}
    {pid bb rid v0 v1 : Nat} {inc : List (Nat × Nat)} {ops : List Nat}
    (hpid : s.ir2vpv.lookup pid = some rid)
    (hrec : s.recipes.lookup rid = some (.widenPhi pid ops))
    (hv0 : s.ir2vpv.lookup
      (incomingValueForBlock inc (F.loops (F.loopFor bb)).loopPredecessor) = some v0)
    (hv1 : s.ir2vpv.lookup
      (incomingValueForBlock inc (F.loops (F.loopFor bb)).latch) = some v1) :
    (fixHeaderPhi F s (pid, bb, inc)).recipes.lookup rid =
      some (.widenPhi pid (ops ++ [v0, v1])) ∧
    (fixHeaderPhi F s (pid, bb, inc)).ir2vpv = s.ir2vpv := by
  have hD : lookupD s.ir2vpv pid = rid := by simp [lookupD, hpid]
  simp only [fixHeaderPhi, hD, getOrCreateVPOperand_found hv0]
  simp only [addOperand_ir2vpv, getOrCreateVPOperand_found
    (show (addOperand s rid v0).ir2vpv.lookup
        (incomingValueForBlock inc (F.loops (F.loopFor bb)).latch) = some v1
      from hv1)]
  constructor
  · rw [addOperand_recipes_self]
    have h1 : (addOperand s rid v0).recipes.lookup rid =
        some (.widenPhi pid (ops ++ [v0])) := by
      rw [addOperand_recipes_self]
      simp [getRecipe, hrec, recipeAddOperand]
    simp [getRecipe, h1, recipeAddOperand]
  · trivial

/-! ## Helper lemmas about `createPredVPBBs` -/

theorem createPredVPBBs_lookup_mono {F : IRFunc} {k x : Nat} :
    ∀ (l acc : List Nat) (s : BState),
      s.bb2vpbb.lookup k = some x →
      ((createPredVPBBs F l acc s).2).bb2vpbb.lookup k = some x := by
  intro l
  induction l with
  | nil => intro acc s h; exact h
  | cons p rest ih =>
    intro acc s h
    exact ih _ _ (getOrCreateVPBB_lookup_mono h)

theorem createPredVPBBs_spec (F : IRFunc) :
    ∀ (l acc : List Nat) (s : BState),
      (createPredVPBBs F l acc s).1 =
        acc ++ l.map (fun p => lookupD ((createPredVPBBs F l acc s).2).bb2vpbb p) := by
  intro l
  induction l with
  | nil => intro acc s; simp [createPredVPBBs]
  | cons p rest ih =>
    intro acc s
    have hstep :
        createPredVPBBs F (p :: rest) acc s =
        createPredVPBBs F rest (acc ++ [(getOrCreateVPBB F p s).1])
          (getOrCreateVPBB F p s).2 := rfl
    rw [hstep, ih]
    have hp : ((createPredVPBBs F rest (acc ++ [(getOrCreateVPBB F p s).1])
        (getOrCreateVPBB F p s).2).2).bb2vpbb.lookup p =
        some (getOrCreateVPBB F p s).1 :=
      createPredVPBBs_lookup_mono _ _ _ (getOrCreateVPBB_lookup_self F p s)
    have hD : lookupD ((createPredVPBBs F rest (acc ++ [(getOrCreateVPBB F p s).1])
        (getOrCreateVPBB F p s).2).2).bb2vpbb p = (getOrCreateVPBB F p s).1 := by
      simp [lookupD, hp]
    simp [hD, hstep]

theorem createPredVPBBs_length (F : IRFunc) :
    ∀ (l acc : List Nat) (s : BState),
      ((createPredVPBBs F l acc s).1).length = acc.length + l.length := by
  intro l
  induction l with
  | nil => intro acc s; simp [createPredVPBBs]
  | cons p rest ih =>
    intro acc s
    have hstep :
        createPredVPBBs F (p :: rest) acc s =
        createPredVPBBs F rest (acc ++ [(getOrCreateVPBB F p s).1])
          (getOrCreateVPBB F p s).2 := rfl
    rw [hstep, ih]
    simp
    omega

/-! ## Helper lemmas about the dataflow analysis initialization -/

theorem initOpsLoop_success :
    ∀ (l : List MOp) (σ : SolverState),
      (initOpsLoop σ l).1 = .success → ∀ op ∈ l, numRegions op = 0 := by
  intro l
  induction l with
  | nil => intro σ _ op hop; cases hop
  | cons o rest ih =>
    intro σ hres op hop
    by_cases hz : numRegions o ≠ 0
    · rw [show initOpsLoop σ (o :: rest) = (.failure, σ) by
        simp [initOpsLoop, hz]] at hres
      exact absurd hres (by simp)
    · have hz2 : numRegions o = 0 := by omega
      have hstep : initOpsLoop σ (o :: rest) =
          initOpsLoop (visitOperation o σ) rest := by
        simp [initOpsLoop, hz2]
      rw [hstep] at hres
      rcases List.mem_cons.mp hop with he | hm
      · rw [he]; exact hz2
      · exact ih _ hres op hm

theorem initBlocksLoop_success {region : List MBlk} :
    ∀ (l : List MBlk) (σ : SolverState),
      (initBlocksLoop region σ l).1 = .success →
      ∀ blk ∈ l, ∀ op ∈ blk.2.2, numRegions op = 0 := by
  intro l
  induction l with
  | nil => intro σ _ blk hblk; cases hblk
  | cons b rest ih =>
    intro σ hres blk hblk op hop
    have hstep : initBlocksLoop region σ (b :: rest) =
        match initOpsLoop (visitBlock region b σ) b.2.2 with
        | (.failure, σ2) => (.failure, σ2)
        | (.success, σ2) => initBlocksLoop region σ2 rest := rfl
    rw [hstep] at hres
    cases hops : initOpsLoop (visitBlock region b σ) b.2.2 with
    | mk r σ2 =>
      cases r with
      | failure => rw [hops] at hres; exact absurd hres (by simp)
      | success =>
        rw [hops] at hres
        rcases List.mem_cons.mp hblk with he | hm
        · have := initOpsLoop_success b.2.2 (visitBlock region b σ)
            (by rw [hops]) op (he ▸ hop)
          exact this
        · exact ih σ2 hres blk hm op hop

/-! ## More helper lemmas -/

theorem xor_right_eq_self_iff (x v : Nat) : (x = x ^^^ v) ↔ v = 0 := by
  constructor
  · intro h
    have h2 : x ^^^ x = x ^^^ (x ^^^ v) := by rw [← h]
    rwa [Nat.xor_self, ← Nat.xor_assoc, Nat.xor_self, Nat.zero_xor, eq_comm] at h2
  · intro h
    subst h
    rw [Nat.xor_zero]

/-! ## The claims -/

/-- C10: for the dataflow collaborator's XOR-merge state, joining with an
uninitialized right-hand state returns `NoChange` and leaves the state
unchanged; joining a value `v` into an uninitialized state initializes it to
`v` and returns `Change`; joining `v` into a state holding `x` replaces it
with `x XOR v` and returns `Change` iff `v` is nonzero; consequently joining
the same value twice into an initialized state restores the original value
-- the merge is an involution, not idempotent. -/
theorem c10_foo_join_xor_merge :
    (∀ s : FooVal, fooJoinState s none = (.NoChange, s))
    ∧ (∀ v : Nat, fooJoinV none v = (.Change, some v))
    ∧ (∀ x v : Nat, (fooJoinV (some x) v).2 = some (x ^^^ v)
        ∧ ((fooJoinV (some x) v).1 = .Change ↔ v ≠ 0))
    ∧ (∀ x v : Nat, (fooJoinV ((fooJoinV (some x) v).2) v).2 = some x) := by
  refine ⟨fun s => rfl, fun v => rfl, fun x v => ⟨rfl, ?_⟩, fun x v => ?_⟩
  · by_cases h : x = x ^^^ v
    · have hv : v = 0 := (xor_right_eq_self_iff x v).mp h
      subst hv
      simp [fooJoinV, Nat.xor_zero]
    · have hv : v ≠ 0 := fun h0 => h ((xor_right_eq_self_iff x v).mpr h0)
      show (if x = x ^^^ v then ChangeResult.NoChange else ChangeResult.Change)
          = ChangeResult.Change ↔ v ≠ 0
      rw [if_neg h]
      simp [hv]
  · show some ((x ^^^ v) ^^^ v) = some x
    rw [Nat.xor_assoc, Nat.xor_self, Nat.xor_zero]

/-- C8: operand resolution is idempotent and deduplicating: a value already
translated resolves to its existing node with the state unchanged; resolving
again right after a resolution returns the same node and the same state;
resolving the same value from two translated instructions -- even with a
resolution of another value `w` in between -- yields the same node both
times; and the live-in registry only ever grows (existing entries are kept
by any resolution). -/
theorem c8_operand_resolution_idempotent_dedup (s : BState) (v w k x y : Nat) :
    (s.ir2vpv.lookup v = some x → getOrCreateVPOperand s v = (x, s))
    ∧ getOrCreateVPOperand ((getOrCreateVPOperand s v).2) v
        = ((getOrCreateVPOperand s v).1, (getOrCreateVPOperand s v).2)
    ∧ (getOrCreateVPOperand
        ((getOrCreateVPOperand ((getOrCreateVPOperand s v).2) w).2) v).1
        = (getOrCreateVPOperand s v).1
    ∧ (s.liveIns.lookup k = some y →
        ((getOrCreateVPOperand s w).2).liveIns.lookup k = some y) := by
  refine ⟨fun h => getOrCreateVPOperand_found h, ?_, ?_,
    fun h => getOrCreateVPOperand_liveIns_mono h⟩
  · exact getOrCreateVPOperand_found (getOrCreateVPOperand_lookup_self s v)
  · have h1 := getOrCreateVPOperand_lookup_mono (v := w)
      (getOrCreateVPOperand_lookup_self s v)
    rw [getOrCreateVPOperand_found h1]

/-- Witness for C8 at a concrete state: value 20 is already translated to
node 6 in `c1state`, and resolving value 100 keeps the live-in entry of any
registered key. -/
theorem c8_witness :
    getOrCreateVPOperand c1state 20 = (6, c1state)
    ∧ ((getOrCreateVPOperand { c1state with liveIns := [(33, 4)] } 100).2).liveIns.lookup 33
        = some 4 := by
  refine ⟨(c8_operand_resolution_idempotent_dedup c1state 20 100 0 6 0).1 (by decide), ?_⟩
  exact (c8_operand_resolution_idempotent_dedup
    { c1state with liveIns := [(33, 4)] } 20 100 33 0 4).2.2.2 (by decide)

/-- C9: solver-level structural errors in the dataflow collaborator -- a
top-level op with a number of regions other than one, an empty top-level
region, or a nested op that itself has regions -- are reported as an
ordinary `failure` result to the caller of the initialization (with no
solver state committed in the first two cases), and the enclosing pass then
aborts cleanly by signalling pass failure instead of crashing. -/
theorem c9_solver_errors_reported_as_failure (top : MOp) (σ : SolverState) :
    (top.regions.length ≠ 1 → fooAnalysisInit top σ = (.failure, σ))
    ∧ (top.regions = [[]] → fooAnalysisInit top σ = (.failure, σ))
    ∧ (∀ region blk op, top.regions = [region] → blk ∈ region →
        op ∈ blk.2.2 → numRegions op ≠ 0 →
        (fooAnalysisInit top σ).1 = .failure)
    ∧ (∀ f : MOp, (fooAnalysisInit f []).1 = .failure →
        runOnOperation f = .signaledPassFailure) := by
  refine ⟨?_, ?_, ?_, ?_⟩
  · intro h
    rcases hr : top.regions with _ | ⟨r, rest⟩
    · simp [fooAnalysisInit, hr]
    · rcases rest with _ | ⟨r2, rest2⟩
      · exact absurd (by rw [hr]; rfl) h
      · simp [fooAnalysisInit, hr]
  · intro h
    simp [fooAnalysisInit, h]
  · intro region blk op hr hblk hop hnz
    rcases hreg : region with _ | ⟨fb, rest⟩
    · subst hreg; cases hblk
    · subst hreg
      have hinit : (fooAnalysisInit top σ).1 =
          (initBlocksLoop (fb :: rest)
            (writeState σ (PPoint.beforeBlock fb.1)
              (fooJoinV (lookupState σ (PPoint.beforeBlock fb.1)) 0).2)
            (fb :: rest)).1 := by
        simp [fooAnalysisInit, hr]
      cases hres : (fooAnalysisInit top σ).1 with
      | failure => rfl
      | success =>
        exfalso
        rw [hinit] at hres
        exact hnz (initBlocksLoop_success (fb :: rest) _ hres blk hblk op hop)
  · intro f h
    simp [runOnOperation, h]

/-- Witness for C9: a two-region top-level op and a nested op with a region
both make the initialization fail, and the former makes the pass signal
failure. -/
theorem c9_witness :
    fooAnalysisInit exBadTop [] = (.failure, [])
    ∧ (fooAnalysisInit exNestedRegionsOp []).1 = .failure
    ∧ runOnOperation exBadTop = .signaledPassFailure := by
  have h1 : fooAnalysisInit exBadTop [] = (.failure, []) :=
    (c9_solver_errors_reported_as_failure exBadTop []).1 (by decide)
  refine ⟨h1, ?_, ?_⟩
  · exact (c9_solver_errors_reported_as_failure exNestedRegionsOp []).2.2.1
      [(10, [], [.mk 2 none [[]]])] (10, [], [.mk 2 none [[]]])
      (.mk 2 none [[]]) rfl (List.mem_cons_self _ _) (List.mem_cons_self _ _)
      (by decide)
  · exact (c9_solver_errors_reported_as_failure exBadTop []).2.2.2 exBadTop
      (by rw [h1])

/-- C1: for a deferred header phi on the fix-up worklist whose placeholder
recipe `rid` has no operands yet and whose two incoming values are already
translated (`v0` for the value incoming from the loop's predecessor /
preheader, `v1` for the value incoming from the loop's latch), the
post-traversal fix-up pass leaves the placeholder with exactly two
operands: operand 0 is the resolved preheader-incoming value and operand 1
the resolved latch-incoming value.  The values are selected by incoming
*block* (`incomingValueForBlock`), not by position, so the original order
of the phi's incoming edges is irrelevant; the other worklist entries
(resolving to recipes different from `rid`) do not disturb this one. -/
theorem c1_fixHeaderPhis_two_operands_canonical_order (F : IRFunc) (s : BState)
    (pre post : List (Nat × Nat × List (Nat × Nat)))
    (pid bb rid v0 v1 : Nat) (inc : List (Nat × Nat))
    (hsplit : s.phisToFix = pre ++ (pid, bb, inc) :: post)
    (hpid : s.ir2vpv.lookup pid = some rid)
    (hrec : s.recipes.lookup rid = some (.widenPhi pid []))
    (hv0 : s.ir2vpv.lookup
      (incomingValueForBlock inc (F.loops (F.loopFor bb)).loopPredecessor)
        = some v0)
    (hv1 : s.ir2vpv.lookup
      (incomingValueForBlock inc (F.loops (F.loopFor bb)).latch) = some v1)
    (hpre : ∀ e ∈ pre, ∃ re, s.ir2vpv.lookup e.1 = some re ∧ re ≠ rid)
    (hpost : ∀ e ∈ post, ∃ re, s.ir2vpv.lookup e.1 = some re ∧ re ≠ rid) :
    (fixHeaderPhis F s).recipes.lookup rid = some (.widenPhi pid [v0, v1]) := by
  unfold fixHeaderPhis
  rw [hsplit, List.foldl_append, List.foldl_cons]
  have hpid1 : (pre.foldl (fixHeaderPhi F) s).ir2vpv.lookup pid = some rid :=
    fixFold_ir2vpv_mono pre s hpid
  have hv01 : (pre.foldl (fixHeaderPhi F) s).ir2vpv.lookup
      (incomingValueForBlock inc (F.loops (F.loopFor bb)).loopPredecessor)
        = some v0 :=
    fixFold_ir2vpv_mono pre s hv0
  have hv11 : (pre.foldl (fixHeaderPhi F) s).ir2vpv.lookup
      (incomingValueForBlock inc (F.loops (F.loopFor bb)).latch) = some v1 :=
    fixFold_ir2vpv_mono pre s hv1
  have hrec1 : (pre.foldl (fixHeaderPhi F) s).recipes.lookup rid =
      some (.widenPhi pid []) := by
    rw [fixFold_recipes_pres pre s hpre]
    exact hrec
  obtain ⟨hstep, hstepIr⟩ := fixHeaderPhi_step (F := F) hpid1 hrec1 hv01 hv11
  rw [fixFold_recipes_pres post _ (fun e he => by
    obtain ⟨re, hre, hner⟩ := hpost e he
    exact ⟨re, fixHeaderPhi_ir2vpv_mono _ (fixFold_ir2vpv_mono pre s hre), hner⟩)]
  simpa using hstep

/-- Witness for C1 at `c1state`: the deferred phi 10 lists its latch edge
(block 6, value 21) *before* its preheader edge (block 1, value 20), yet
operand 0 of the fixed placeholder is node 6 (the preheader-side value 20)
and operand 1 is node 7 (the latch-side value 21). -/
theorem c1_witness :
    (fixHeaderPhis exNested c1state).recipes.lookup 5
      = some (.widenPhi 10 [6, 7]) := by
  exact c1_fixHeaderPhis_two_operands_canonical_order exNested c1state
    [] [] 10 2 5 6 7 [(6, 21), (1, 20)] rfl (by decide) (by decide)
    (by decide) (by decide)
    (fun e he => absurd he (List.not_mem_nil e))
    (fun e he => absurd he (List.not_mem_nil e))

theorem getLatchOfExit_ne_zero {F : IRFunc} {bb : Nat}
    (h : getLatchOfExit F bb ≠ 0) :
    F.bbPreds bb = [getLatchOfExit F bb] := by
  cases hp : F.bbPreds bb with
  | nil =>
    exact absurd (by simp [getLatchOfExit, singlePredOf, hp]) h
  | cons p rest =>
    cases rest with
    | nil =>
      have hsp : singlePredOf F bb = p := by simp [singlePredOf, hp]
      simp only [getLatchOfExit, hsp] at h ⊢
      by_cases h0 : (p == 0) = true
      · rw [if_pos h0] at h; exact absurd rfl h
      · rw [if_neg h0] at h ⊢
        by_cases hl : (F.loopFor p == F.loopFor bb) = true
        · rw [if_pos hl] at h; exact absurd rfl h
        · rw [if_neg hl]
    | cons q rest2 =>
      exact absurd (by simp [getLatchOfExit, singlePredOf, hp]) h

/-- C2 (amended): for a block whose predecessors are wired by
`setVPBBPredsFromBB` -- every non-header block -- the appended predecessor
list has the same length and the same relative order as the input block's
predecessor list: in the ordinary case (`getLatchOfExit` null) the i-th
appended predecessor is exactly the output block of the i-th input
predecessor; in the dedicated nested-loop-exit case the input predecessor
list is the singleton latch and the single appended predecessor is the
parent region of that latch's block. -/
theorem c2_preds_mirror_input (F : IRFunc) (vpbb bb : Nat) (s : BState) :
    (getLatchOfExit F bb = 0 →
      (getBlk (setVPBBPredsFromBB F vpbb bb s) vpbb).preds =
        (getBlk ((createPredVPBBs F (F.bbPreds bb) [] s).2) vpbb).preds ++
          (F.bbPreds bb).map
            (fun p => lookupD ((createPredVPBBs F (F.bbPreds bb) [] s).2).bb2vpbb p))
    ∧ (getLatchOfExit F bb ≠ 0 →
      F.bbPreds bb = [getLatchOfExit F bb]
      ∧ (getBlk (setVPBBPredsFromBB F vpbb bb s) vpbb).preds =
          (getBlk ((getOrCreateVPBB F (getLatchOfExit F bb) s).2) vpbb).preds ++
            [(getBlk ((getOrCreateVPBB F (getLatchOfExit F bb) s).2)
                (getOrCreateVPBB F (getLatchOfExit F bb) s).1).parent]) := by
  constructor
  · intro h
    have hb : (getLatchOfExit F bb != 0) = false := by
      simp [h]
    simp only [setVPBBPredsFromBB, hb, Bool.false_eq_true, if_false,
      setPredecessors, getBlk_setBlk_self]
    rw [createPredVPBBs_spec]
    simp
  · intro h
    have hb : (getLatchOfExit F bb != 0) = true := bne_iff_ne.mpr h
    refine ⟨getLatchOfExit_ne_zero h, ?_⟩
    simp only [setVPBBPredsFromBB, hb, if_true, setPredecessors,
      getBlk_setBlk_self]

/-- C2 counterexample: the claim fails for loop headers.  In the nested
example the inner loop's header (input block 4) has two input predecessors
`[3, 5]`, but its output block (block 4 of the built plan) has an empty
predecessor list after `buildPlainCFG`. -/
theorem c2_counterexample :
    lookupD (buildPlainCFG exNested).bb2vpbb 4 = 4
    ∧ (getBlk (buildPlainCFG exNested) 4).preds = []
    ∧ exNested.bbPreds 4 = [3, 5] := by
  refine ⟨by decide, by decide, by decide⟩

/-- Witness for C2: the ordinary case at block 3 of `exNested` (sole input
predecessor 2, already translated to block 2) and the nested-exit case at
block 6 (input predecessor list `[5]`, wired to the inner loop's region 5). -/
theorem c2_witness :
    (getBlk (setVPBBPredsFromBB exNested 3 3 c2stateA) 3).preds = [2]
    ∧ exNested.bbPreds 6 = [5]
    ∧ (getBlk (setVPBBPredsFromBB exNested 9 6 c2stateB) 9).preds = [5] := by
  refine ⟨?_, ?_, ?_⟩
  · exact ((c2_preds_mirror_input exNested 3 3 c2stateA).1 (by decide)).trans
      (by decide)
  · exact ((c2_preds_mirror_input exNested 9 6 c2stateB).2 (by decide)).1
  · exact (((c2_preds_mirror_input exNested 9 6 c2stateB).2 (by decide)).2).trans
      (by decide)

/-- C3 (amended): on first visiting a basic block that is the header of a
loop *strictly* contained in the loop being translated, `getOrCreateVPBB`
also creates the Region for that loop level: the new block is the region's
entry (and gets the region as parent), and the region's parent is the
region *previously recorded* for the enclosing loop (null when none is
recorded, in particular for the loop being translated).  Region creation
happens only then: a repeat visit returns the existing block with the state
untouched, and a first visit of a non-header block allocates only the block
and leaves the region map unchanged; likewise no region is created for a
block of the loop being translated itself. -/
theorem c3_region_creation_on_first_header_visit (F : IRFunc) (bb : Nat)
    (s : BState) :
    (s.bb2vpbb.lookup bb = none → F.loopFor bb ≠ 0 →
      F.loopFor bb ≠ F.theLoop →
      doesContainLoop F (F.loopFor bb) F.theLoop = true →
      isHeaderBB F bb (F.loopFor bb) = true →
      ((getOrCreateVPBB F bb s).1 = s.nextId
      ∧ ((getOrCreateVPBB F bb s).2).loop2region.lookup (F.loopFor bb)
          = some (s.nextId + 1)
      ∧ (getBlk ((getOrCreateVPBB F bb s).2) (s.nextId + 1)).isRegion = true
      ∧ (getBlk ((getOrCreateVPBB F bb s).2) (s.nextId + 1)).entry = s.nextId
      ∧ (getBlk ((getOrCreateVPBB F bb s).2) (s.nextId + 1)).parent
          = lookupD s.loop2region (F.loops (F.loopFor bb)).parentLoop
      ∧ (getBlk ((getOrCreateVPBB F bb s).2) s.nextId).parent = s.nextId + 1
      ∧ ((getOrCreateVPBB F bb s).2).nextId = s.nextId + 2))
    ∧ (∀ v, s.bb2vpbb.lookup bb = some v → getOrCreateVPBB F bb s = (v, s))
    ∧ (s.bb2vpbb.lookup bb = none → isHeaderBB F bb (F.loopFor bb) = false →
      ((getOrCreateVPBB F bb s).2).loop2region = s.loop2region
      ∧ ((getOrCreateVPBB F bb s).2).nextId = s.nextId + 1)
    ∧ (s.bb2vpbb.lookup bb = none → F.loopFor bb = F.theLoop →
      ((getOrCreateVPBB F bb s).2).loop2region = s.loop2region
      ∧ ((getOrCreateVPBB F bb s).2).nextId = s.nextId + 1) := by
  refine ⟨?_, ?_, ?_, ?_⟩
  · intro h hl0 hlT hdc hhd
    have hb0 : (F.loopFor bb == 0) = false := beq_eq_false_iff_ne.mpr hl0
    have hbT : (F.loopFor bb == F.theLoop) = false := beq_eq_false_iff_ne.mpr hlT
    have hne1 : s.nextId ≠ s.nextId + 1 := by omega
    have hne2 : s.nextId + 1 ≠ s.nextId := by omega
    simp only [getOrCreateVPBB, h, hb0, hbT, hdc, hhd, createVPBasicBlock,
      createVPRegionBlock, setEntry, setBlkParent, setBlk, getBlk,
      Bool.not_true, Bool.or_false, Bool.false_or, Bool.or_self,
      Bool.false_eq_true, if_false]
    simp [lookup_cons_ne, hne1, hne2, lookup_cons_self, lookupD]
  · intro v hv
    exact getOrCreateVPBB_found hv
  · intro h hhd
    simp only [getOrCreateVPBB, h, hhd, createVPBasicBlock, setBlkParent,
      setBlk, Bool.not_false, if_true]
    split
    · exact ⟨rfl, rfl⟩
    · exact ⟨rfl, rfl⟩
  · intro h hlT
    have hbT : (F.loopFor bb == F.theLoop) = true := beq_iff_eq.mpr hlT
    simp only [getOrCreateVPBB, h, hbT, createVPBasicBlock, Bool.true_or,
      Bool.or_true, if_true]
    exact ⟨trivial, trivial⟩

/-- C3 counterexample: the claim's "or equal to the loop being translated"
case is false -- the first visit of the translated loop's own header (block
2 of `exNested`, whose loop *is* `theLoop`) creates no region at all: the
region map stays empty, only one node is allocated, and the new block has
no parent region. -/
theorem c3_counterexample :
    exNested.loopFor 2 = exNested.theLoop
    ∧ isHeaderBB exNested 2 (exNested.loopFor 2) = true
    ∧ initState.bb2vpbb.lookup 2 = none
    ∧ (getOrCreateVPBB exNested 2 initState).2.loop2region = []
    ∧ (getOrCreateVPBB exNested 2 initState).2.nextId = 3
    ∧ (getBlk (getOrCreateVPBB exNested 2 initState).2
        (getOrCreateVPBB exNested 2 initState).1).parent = 0 := by
  refine ⟨by decide, by decide, by decide, by decide, by decide, by decide⟩

/-- Witness for C3 at `c3state`: the first visit of the inner loop's header
(block 4 of `exNested`) creates block 5 and region 6 with entry 5 and a
null parent (the outer loop's region is never recorded), and registers the
region for loop 2; a repeat visit of block 2 returns the recorded block 2
unchanged. -/
theorem c3_witness :
    ((getOrCreateVPBB exNested 4 c3state).1 = 5
      ∧ (getOrCreateVPBB exNested 4 c3state).2.loop2region.lookup 2 = some 6
      ∧ (getBlk (getOrCreateVPBB exNested 4 c3state).2 6).isRegion = true
      ∧ (getBlk (getOrCreateVPBB exNested 4 c3state).2 6).entry = 5
      ∧ (getBlk (getOrCreateVPBB exNested 4 c3state).2 6).parent = 0
      ∧ (getBlk (getOrCreateVPBB exNested 4 c3state).2 5).parent = 6)
    ∧ getOrCreateVPBB exNested 2 c3state = (2, c3state) := by
  constructor
  · have h := (c3_region_creation_on_first_header_visit exNested 4 c3state).1
      (by decide) (by decide) (by decide) (by decide) (by decide)
    exact ⟨h.1, h.2.1, h.2.2.1, h.2.2.2.1, (h.2.2.2.2.1).trans (by decide),
      h.2.2.2.2.2.1⟩
  · exact (c3_region_creation_on_first_header_visit exNested 2 c3state).2.1 2
      (by decide)

/-- C4 (amended): only the translated loop's back-edge is recorded as an
explicit edge.  When the processed block is `TheLoop`'s latch, successor
wiring is exactly one `connectBlocks` from the latch's block to the header's
block -- the latch's block gains the header's block as successor, the
header's block gains the latch's block as predecessor, and nothing else is
done for that block.  For the latch of a nested loop (two-way conditional
terminator), no edge to the nested header is recorded at all: the latch's
block's successor list is left untouched (the cycle stays implicit in the
region, whose successor is set to the non-header target -- see C5). -/
theorem c4_backedge_recording (F : IRFunc) (bb vpbb region c i0 i1 : Nat)
    (s : BState) :
    (bb = (F.loops F.theLoop).latch →
      wireSuccessors F bb vpbb region s =
        connectBlocks ((getOrCreateVPBB F (F.loops (F.loopFor bb)).header s).2)
          vpbb ((getOrCreateVPBB F (F.loops (F.loopFor bb)).header s).1))
    ∧ (bb = (F.loops F.theLoop).latch →
        vpbb ≠ (getOrCreateVPBB F (F.loops (F.loopFor bb)).header s).1 →
        ((getBlk (wireSuccessors F bb vpbb region s) vpbb).succs =
          (getBlk ((getOrCreateVPBB F (F.loops (F.loopFor bb)).header s).2)
              vpbb).succs
            ++ [(getOrCreateVPBB F (F.loops (F.loopFor bb)).header s).1]
        ∧ (getBlk (wireSuccessors F bb vpbb region s)
              (getOrCreateVPBB F (F.loops (F.loopFor bb)).header s).1).preds =
          (getBlk ((getOrCreateVPBB F (F.loops (F.loopFor bb)).header s).2)
              (getOrCreateVPBB F (F.loops (F.loopFor bb)).header s).1).preds
            ++ [vpbb]))
    ∧ (bb ≠ (F.loops F.theLoop).latch → F.bbTerm bb = .br2 c i0 i1 →
        bb = (F.loops (F.loopFor bb)).latch → vpbb ≠ region →
        (getBlk (wireSuccessors F bb vpbb region s) vpbb).succs =
          (getBlk ((getOrCreateVPBB F i1 ((getOrCreateVPBB F i0 s).2)).2)
              vpbb).succs) := by
  refine ⟨?_, ?_, ?_⟩
  · intro htop
    have hbeq : (bb == (F.loops F.theLoop).latch) = true := beq_iff_eq.mpr htop
    simp only [wireSuccessors, hbeq, if_true]
  · intro htop hne
    have hbeq : (bb == (F.loops F.theLoop).latch) = true := beq_iff_eq.mpr htop
    have hne2 : (getOrCreateVPBB F (F.loops (F.loopFor bb)).header s).1 ≠ vpbb :=
      fun h2 => hne h2.symm
    simp only [wireSuccessors, hbeq, if_true, connectBlocks]
    constructor
    · rw [getBlk_setBlk_ne hne, getBlk_setBlk_self]
    · rw [getBlk_setBlk_self, getBlk_setBlk_ne hne2]
  · intro hntop htm hlatch hvr
    have hbtop : (bb == (F.loops F.theLoop).latch) = false :=
      beq_eq_false_iff_ne.mpr hntop
    have hblatch : (bb == (F.loops (F.loopFor bb)).latch) = true :=
      beq_iff_eq.mpr hlatch
    have hvr2 : region ≠ vpbb := fun h2 => hvr h2.symm
    simp only [wireSuccessors, hbtop, Bool.false_eq_true, if_false, htm,
      hblatch, if_true, setExiting, setBlkParent, setOneSuccessor,
      setSuccessors]
    rw [getBlk_setBlk_self, getBlk_setBlk_ne hvr, getBlk_setBlk_ne hvr]

/-- C5: for the latch of a nested loop ending in a two-way conditional
terminator, the builder sets the *region's* successor -- not the latch
block's -- to whichever of the two targets is not the loop's own header,
and records the latch's block as the region's exiting block; with the
region's successor list empty beforehand the region ends up with exactly
one successor (the non-header target) and exactly one exiting block, and
the latch block's own successor list is untouched. -/
theorem c5_nested_latch_region_successor (F : IRFunc)
    (bb vpbb region c i0 i1 : Nat) (s : BState)
    (htm : F.bbTerm bb = .br2 c i0 i1)
    (hntop : bb ≠ (F.loops F.theLoop).latch)
    (hlatch : bb = (F.loops (F.loopFor bb)).latch)
    (hvr : vpbb ≠ region)
    (hempty : (getBlk ((getOrCreateVPBB F i1 ((getOrCreateVPBB F i0 s).2)).2)
        region).succs = [])
    (hh0 : isHeaderVPBB ((getOrCreateVPBB F i1 ((getOrCreateVPBB F i0 s).2)).2)
        (getOrCreateVPBB F i0 s).1
      = (i0 == (F.loops (F.loopFor bb)).header))
    (hnb : ¬(i0 = (F.loops (F.loopFor bb)).header
        ∧ i1 = (F.loops (F.loopFor bb)).header)) :
    ((getBlk (wireSuccessors F bb vpbb region s) region).exiting = vpbb)
    ∧ (i0 = (F.loops (F.loopFor bb)).header →
        (getBlk (wireSuccessors F bb vpbb region s) region).succs =
          [(getOrCreateVPBB F i1 ((getOrCreateVPBB F i0 s).2)).1]
        ∧ i1 ≠ (F.loops (F.loopFor bb)).header)
    ∧ (i0 ≠ (F.loops (F.loopFor bb)).header →
        (getBlk (wireSuccessors F bb vpbb region s) region).succs =
          [(getOrCreateVPBB F i0 s).1])
    ∧ (getBlk (wireSuccessors F bb vpbb region s) vpbb).succs =
        (getBlk ((getOrCreateVPBB F i1 ((getOrCreateVPBB F i0 s).2)).2)
            vpbb).succs := by
  have hbtop : (bb == (F.loops F.theLoop).latch) = false :=
    beq_eq_false_iff_ne.mpr hntop
  have hblatch : (bb == (F.loops (F.loopFor bb)).latch) = true :=
    beq_iff_eq.mpr hlatch
  have hvr2 : region ≠ vpbb := fun h2 => hvr h2.symm
  simp only [wireSuccessors, hbtop, Bool.false_eq_true, if_false, htm,
    hblatch, if_true, setExiting, setBlkParent, setOneSuccessor,
    setSuccessors]
  refine ⟨?_, ?_, ?_, ?_⟩
  · rw [getBlk_setBlk_ne hvr2, getBlk_setBlk_self]
  · intro hh
    have hb : (i0 == (F.loops (F.loopFor bb)).header) = true := beq_iff_eq.mpr hh
    refine ⟨?_, fun h1 => hnb ⟨hh, h1⟩⟩
    rw [getBlk_setBlk_ne hvr2, getBlk_setBlk_self, getBlk_setBlk_self,
      hh0, hb]
    rw [hempty]
    simp
  · intro hh
    have hb : (i0 == (F.loops (F.loopFor bb)).header) = false :=
      beq_eq_false_iff_ne.mpr hh
    rw [getBlk_setBlk_ne hvr2, getBlk_setBlk_self, getBlk_setBlk_self,
      hh0, hb]
    rw [hempty]
    simp
  · rw [getBlk_setBlk_self, getBlk_setBlk_ne hvr, getBlk_setBlk_ne hvr]

/-- C7: for a visited block that is not a latch (neither of its own loop nor
of the translated loop) ending in a two-way conditional terminator: when
exactly one of the two branch targets lies outside the block's loop, only
the in-loop target is appended as the block's sole successor (the
out-of-loop edge is not modelled); when both targets lie inside, both are
appended as the block's two successors in branch order. -/
theorem c7_conditional_successor_wiring (F : IRFunc)
    (bb vpbb region c i0 i1 : Nat) (s : BState)
    (htm : F.bbTerm bb = .br2 c i0 i1)
    (hntop : bb ≠ (F.loops F.theLoop).latch)
    (hnlatch : bb ≠ (F.loops (F.loopFor bb)).latch)
    (hl : F.loopFor bb ≠ 0) :
    (loopContains F (F.loopFor bb) i0 = false →
      loopContains F (F.loopFor bb) i1 = true →
      (getBlk (wireSuccessors F bb vpbb region s) vpbb).succs =
        (getBlk ((getOrCreateVPBB F i1 ((getOrCreateVPBB F i0 s).2)).2)
            vpbb).succs
          ++ [(getOrCreateVPBB F i1 ((getOrCreateVPBB F i0 s).2)).1])
    ∧ (loopContains F (F.loopFor bb) i0 = true →
        loopContains F (F.loopFor bb) i1 = false →
        (getBlk (wireSuccessors F bb vpbb region s) vpbb).succs =
          (getBlk ((getOrCreateVPBB F i1 ((getOrCreateVPBB F i0 s).2)).2)
              vpbb).succs
            ++ [(getOrCreateVPBB F i0 s).1])
    ∧ (loopContains F (F.loopFor bb) i0 = true →
        loopContains F (F.loopFor bb) i1 = true →
        (getBlk (wireSuccessors F bb vpbb region s) vpbb).succs =
          (getBlk ((getOrCreateVPBB F i1 ((getOrCreateVPBB F i0 s).2)).2)
              vpbb).succs
            ++ [(getOrCreateVPBB F i0 s).1,
                (getOrCreateVPBB F i1 ((getOrCreateVPBB F i0 s).2)).1]) := by
  have hbtop : (bb == (F.loops F.theLoop).latch) = false :=
    beq_eq_false_iff_ne.mpr hntop
  have hblatch : (bb == (F.loops (F.loopFor bb)).latch) = false :=
    beq_eq_false_iff_ne.mpr hnlatch
  have hbl0 : (F.loopFor bb != 0) = true := bne_iff_ne.mpr hl
  refine ⟨?_, ?_, ?_⟩
  · intro h0 h1
    simp only [wireSuccessors, hbtop, Bool.false_eq_true, if_false, htm,
      hblatch, hbl0, h0, h1, Bool.not_false, Bool.true_and, if_true,
      setOneSuccessor, setSuccessors, getBlk_setBlk_self]
  · intro h0 h1
    simp only [wireSuccessors, hbtop, Bool.false_eq_true, if_false, htm,
      hblatch, hbl0, h0, h1, Bool.not_false, Bool.not_true, Bool.true_and,
      Bool.and_false, if_true, if_false, setOneSuccessor, setSuccessors,
      getBlk_setBlk_self]
  · intro h0 h1
    simp only [wireSuccessors, hbtop, Bool.false_eq_true, if_false, htm,
      hblatch, hbl0, h0, h1, Bool.not_true, Bool.true_and, Bool.and_false,
      if_false, setTwoSuccessors, setSuccessors, getBlk_setBlk_self]

/-- C4 counterexample: the claim fails for nested loops.  After
`buildPlainCFG` on the nested example, the inner loop (latch = input block
5, header = input block 4) is translated -- its region 5 has entry block 4
and exiting block 6 -- yet the latch's block 6 has an *empty* successor
list: no back-edge from the latch block to the header block is recorded. -/
theorem c4_counterexample :
    lookupD (buildPlainCFG exNested).bb2vpbb 5 = 6
    ∧ lookupD (buildPlainCFG exNested).bb2vpbb 4 = 4
    ∧ (getBlk (buildPlainCFG exNested) 5).entry = 4
    ∧ (getBlk (buildPlainCFG exNested) 5).exiting = 6
    ∧ (getBlk (buildPlainCFG exNested) 6).succs = [] := by
  refine ⟨by decide, by decide, by decide, by decide, by decide⟩

/-- Witness for C4: at the outer latch of `exNested` (block 6, translated
to 9) the wiring adds exactly the latch-to-header edge; at the inner latch
(block 5, translated to 6) the latch block's successor list stays empty. -/
theorem c4_witness :
    ((getBlk (wireSuccessors exNested 6 9 0 c4state) 9).succs = [2]
      ∧ (getBlk (wireSuccessors exNested 6 9 0 c4state) 2).preds = [9])
    ∧ (getBlk (wireSuccessors exNested 5 6 5 c5state) 6).succs = [] := by
  constructor
  · have h := (c4_backedge_recording exNested 6 9 0 101 2 7 c4state).2.1
      (by decide) (by decide)
    exact ⟨h.1.trans (by decide), h.2.trans (by decide)⟩
  · exact ((c4_backedge_recording exNested 5 6 5 100 4 6 c5state).2.2
      (by decide) (by decide) (by decide) (by decide)).trans (by decide)

/-- Witness for C5 at the inner latch of `exNested` (block 5, translated to
6, region 5): the region's exiting block becomes 6, the region's sole
successor becomes block 9 (the non-header target, input block 6), and the
latch block's own successors stay empty. -/
theorem c5_witness :
    (getBlk (wireSuccessors exNested 5 6 5 c5state) 5).exiting = 6
    ∧ (getBlk (wireSuccessors exNested 5 6 5 c5state) 5).succs = [9]
    ∧ (getBlk (wireSuccessors exNested 5 6 5 c5state) 6).succs = [] := by
  have h := c5_nested_latch_region_successor exNested 5 6 5 100 4 6 c5state
    (by decide) (by decide) (by decide) (by decide) (by decide) (by decide)
    (by decide)
  exact ⟨h.1, (h.2.1 (by decide)).1.trans (by decide), h.2.2.2.trans (by decide)⟩

/-- Witness for C7 at block 3 of `exEarlyExit` (conditional branch to the
outside block 7 or the in-loop latch 4): only the in-loop target is wired,
as the sole successor. -/
theorem c7_witness :
    (getBlk (wireSuccessors exEarlyExit 3 3 0 c7state) 3).succs = [6] := by
  exact ((c7_conditional_successor_wiring exEarlyExit 3 3 0 100 7 4 c7state
    (by decide) (by decide) (by decide) (by decide)).1 (by decide)
    (by decide)).trans (by decide)

theorem switchOpsFold_prefix :
    ∀ (cases : List (Nat × Nat)) (acc : List Nat) (s : BState),
      ∃ rest,
        (cases.foldl (fun acc cse =>
          (acc.1 ++ [(getOrCreateVPOperand acc.2 cse.1).1],
           (getOrCreateVPOperand acc.2 cse.1).2)) (acc, s)).1 = acc ++ rest
        ∧ rest.length = cases.length := by
  intro cases
  induction cases with
  | nil => intro acc s; exact ⟨[], by simp, rfl⟩
  | cons cse rest2 ih =>
    intro acc s
    obtain ⟨r2, hr2, hlen⟩ := ih (acc ++ [(getOrCreateVPOperand s cse.1).1])
      (getOrCreateVPOperand s cse.1).2
    refine ⟨(getOrCreateVPOperand s cse.1).1 :: r2, ?_, by simp [hlen]⟩
    rw [List.foldl_cons, hr2]
    simp

/-- C6 (amended): during instruction translation a branch produces no node
unless it is a genuine conditional branch, the block is not the translated
loop's latch, and both destinations lie inside the translated loop -- in
which case a one-operand `BranchOnCond` node carrying the resolved
condition is appended; an unconditional branch never produces a node, and a
conditional branch on the translated loop's latch or with a destination
outside the loop leaves the state untouched.  A switch always produces a
node carrying the resolved selector plus one resolved operand per case. -/
theorem c6_terminator_translation (F : IRFunc) (bb vpbb : Nat) (s : BState)
    (c i0 i1 d t : Nat) (cs : List (Nat × Nat)) :
    (F.bbTerm bb = .br1 t → translateTerminator F bb vpbb s = s)
    ∧ (F.bbTerm bb = .br2 c i0 i1 →
        ((F.loops F.theLoop).latch = bb ∨
          (bbSuccs F bb).any (fun succ => !loopContains F F.theLoop succ) = true) →
        translateTerminator F bb vpbb s = s)
    ∧ (F.bbTerm bb = .br2 c i0 i1 →
        (F.loops F.theLoop).latch ≠ bb →
        (bbSuccs F bb).any (fun succ => !loopContains F F.theLoop succ) = false →
        ((getBlk (translateTerminator F bb vpbb s) vpbb).recipeIds =
          (getBlk ((getOrCreateVPOperand s c).2) vpbb).recipeIds
            ++ [((getOrCreateVPOperand s c).2).nextId]
        ∧ (translateTerminator F bb vpbb s).recipes.lookup
            (((getOrCreateVPOperand s c).2).nextId) =
          some (.branchOnCond [(getOrCreateVPOperand s c).1])))
    ∧ (F.bbTerm bb = .switchT c d cs →
        ∃ rid ops,
          (translateTerminator F bb vpbb s).recipes.lookup rid =
            some (.switchRecipe ops)
          ∧ ops.length = 1 + cs.length
          ∧ ops.head? = some (getOrCreateVPOperand s c).1) := by
  refine ⟨?_, ?_, ?_, ?_⟩
  · intro htm
    simp [translateTerminator, htm]
  · intro htm hguard
    rcases hguard with hg | hg
    · have hb : ((F.loops F.theLoop).latch == bb) = true := beq_iff_eq.mpr hg
      simp [translateTerminator, htm, hb]
    · simp [translateTerminator, htm, hg]
  · intro htm hlch hany
    have hb : ((F.loops F.theLoop).latch == bb) = false :=
      beq_eq_false_iff_ne.mpr hlch
    simp only [translateTerminator, htm, hb, hany, Bool.or_self,
      Bool.false_eq_true, if_false, appendRecipe, setBlk, getBlk,
      lookup_cons_self]
    exact ⟨rfl, trivial⟩
  · intro htm
    obtain ⟨rest, hops, hlen⟩ := switchOpsFold_prefix cs
      [(getOrCreateVPOperand s c).1] (getOrCreateVPOperand s c).2
    simp only [translateTerminator, htm, appendRecipe]
    refine ⟨_, _, lookup_cons_self, ?_, ?_⟩
    · rw [hops]
      simp [hlen, Nat.add_comm]
    · rw [hops]
      rfl

/-- C6 counterexample: the claim as stated fails on the translated loop's
latch.  In `exLatchCond`, block 3 is the latch of `theLoop`, ends in a
genuine conditional branch, and both destinations (2 and 3) lie inside the
loop body -- so the claim demands a conditional-transfer node -- yet
translation leaves the state untouched: no node is produced. -/
theorem c6_counterexample :
    exLatchCond.bbTerm 3 = .br2 100 2 3
    ∧ (bbSuccs exLatchCond 3).all
        (fun t => loopContains exLatchCond exLatchCond.theLoop t) = true
    ∧ (exLatchCond.loops exLatchCond.theLoop).latch = 3
    ∧ translateTerminator exLatchCond 3 9 initState = initState := by
  refine ⟨by decide, by decide, by decide, by decide⟩

/-- Witness for C6: at the inner latch of `exNested` (block 5, conditional
with both destinations inside the translated loop, and not the translated
loop's latch) a one-operand `BranchOnCond` node is appended (recipe 11 with
the resolved condition node 10); at the switch of `exSwitch` a node with
the resolved selector plus one operand per case is created. -/
theorem c6_witness :
    ((getBlk (translateTerminator exNested 5 6 c5state) 6).recipeIds = [11]
      ∧ (translateTerminator exNested 5 6 c5state).recipes.lookup 11 =
          some (.branchOnCond [10]))
    ∧ (∃ rid ops,
        (translateTerminator exSwitch 3 3 swState).recipes.lookup rid =
          some (.switchRecipe ops)
        ∧ ops.length = 2 ∧ ops.head? = some 5) := by
  constructor
  · have h := (c6_terminator_translation exNested 5 6 c5state 100 4 6 0 0
      []).2.2.1 (by decide) (by decide) (by decide)
    exact ⟨h.1.trans (by decide), h.2.trans (by decide)⟩
  · obtain ⟨rid, ops, h1, h2, h3⟩ := (c6_terminator_translation exSwitch 3 3
      swState 100 0 0 4 0 [(7, 2)]).2.2.2 (by decide)
    exact ⟨rid, ops, h1, h2.trans (by decide), h3.trans (by decide)⟩
